import Mathlib

/-!
Verification of the retry/backoff execution engine of the Citrea automation
bot (src/index.js).  The core under specification consists of
`isRetryableError` (lines 51-67) and `withRetry` (lines 18-48), together with
the process-wide default policy `RETRY_CONFIG` (lines 10-15).

The JavaScript source is embedded shallowly:

* A JS error value is modelled by `JsError`, which carries an optional
  message string (`none` models a missing / `undefined` message field).
* `error.message.toLowerCase()` throwing a `TypeError` when the message is
  `undefined` is modelled by `isRetryableError` returning
  `Except.error JsTypeError.typeError`.
* JS `String.prototype.toLowerCase` on the ASCII strings involved is
  modelled by mapping `Char.toLower` over the characters, and
  `String.prototype.includes` by a structural substring scan over the
  character lists.
* The asynchronous operation passed to `withRetry` is modelled by a function
  from the (1-based) invocation index to `Except JsError α`: the value the
  k-th invocation of the operation settles with.
* `withRetry`'s `for` loop is modelled by the fuel-indexed recursion
  `withRetryGo`; the fuel counts the loop iterations still permitted by the
  guard `attempt <= maxAttempts`, so fuel running out is exactly the guard
  failing and control reaching the trailing `throw lastError` (line 47).
* The observable behaviour of one `withRetry` call is collected in a
  `RunResult`: its outcome, the number of invocations of the operation, the
  list of arguments passed to `sleep` (the backoff waits, line 41), and
  whether the trailing `throw lastError` after the loop ran.
* JS numbers appearing as delays and backoff factors are modelled by `ℚ`;
  an `Option ℚ` is used where a field of a destructured policy object can
  be `undefined`, with `none` also absorbing `NaN` (arithmetic on
  `undefined` yields `NaN`, and `Math.min` with a `NaN` argument yields
  `NaN`).
-/

/-- The characters of JS `needle`, as scanned by `hay.includes(needle)`:
returns `true` iff `needle` occurs as a contiguous run inside `hay`.
Structural model of `String.prototype.includes`. -/
def listContainsSeq (needle : List Char) : List Char → Bool
  | [] => needle.isEmpty
  | c :: t => needle.isPrefixOf (c :: t) || listContainsSeq needle t

/-- Model of JS `String.prototype.toLowerCase` on the ASCII strings used by
the classifier: lower-case every character. -/
def jsToLower (s : String) : String :=
  String.mk (s.data.map Char.toLower)

/-- Model of JS `hay.includes(needle)`. -/
def jsIncludes (hay needle : String) : Bool :=
  listContainsSeq needle.data hay.data

/-- A JS error value as seen by the retry engine: it exposes at most a
message string.  `message = none` models an error value whose `message`
field is absent (`undefined`). -/
structure JsError where
  message : Option String
  deriving DecidableEq, Repr

/-- The `TypeError` raised by `error.message.toLowerCase()` when `message`
is `undefined`. -/
inductive JsTypeError where
  | typeError
  deriving DecidableEq, Repr

/-- The `retryableErrors` array of src/index.js lines 52-63, verbatim. -/
def retryableErrors : List String :=
  ["timeout",
   "network error",
   "nonce too low",
   "transaction underpriced",
   "insufficient funds for gas",
   "replacement fee too low",
   "rate limit exceeded",
   "Internal JSON-RPC error",
   "connection reset",
   "too many requests"]

/-- src/index.js lines 51-67: lower-case the message and test whether it
includes any entry of `retryableErrors` (itself lower-cased).  Reading
`error.message.toLowerCase()` throws a `TypeError` when the message field is
absent; this is the `Except.error` branch. -/
def isRetryableError (e : JsError) : Except JsTypeError Bool :=
  match e.message with
  | none => Except.error JsTypeError.typeError
  | some m =>
      Except.ok (retryableErrors.any fun s => jsIncludes (jsToLower m) (jsToLower s))

/-- The RetryableErrorSet as the specification lists it: the entries of
`retryableErrors`, lower-cased. -/
def retryableErrorSet : List String :=
  ["timeout",
   "network error",
   "nonce too low",
   "transaction underpriced",
   "insufficient funds for gas",
   "replacement fee too low",
   "rate limit exceeded",
   "internal json-rpc error",
   "connection reset",
   "too many requests"]

theorem retryableErrors_toLower :
    retryableErrors.map jsToLower = retryableErrorSet := by
  decide

/-- `listContainsSeq` agrees with the mathematical substring relation
`List.IsInfix`. -/
theorem listContainsSeq_eq_true_iff (needle hay : List Char) :
    listContainsSeq needle hay = true ↔ needle <:+: hay := by
  induction hay with
  | nil =>
      simp [listContainsSeq, List.isEmpty_iff, List.infix_nil]
  | cons c t ih =>
      simp only [listContainsSeq, Bool.or_eq_true, ih, List.infix_cons_iff,
        List.isPrefixOf_iff_prefix]

/-- For errors that do carry a message, the classifier returns a boolean
verdict: `true` exactly when the lower-cased message contains a member of
`retryableErrorSet` as a substring. -/
theorem isRetryableError_some (m : String) :
    isRetryableError ⟨some m⟩ =
      Except.ok (retryableErrorSet.any fun s => jsIncludes (jsToLower m) s) := by
  have h : (retryableErrors.any fun s => jsIncludes (jsToLower m) (jsToLower s)) =
      (retryableErrorSet.any fun s => jsIncludes (jsToLower m) s) := by
    rw [← retryableErrors_toLower, List.any_map]
    rfl
  simp [isRetryableError, h]

/-- What a non-success exit of `withRetry` throws: a real error value from an
attempt, the `undefined` value of an unset `lastError` (line 47 with zero
loop iterations), or the `TypeError` raised by the classifier reading
`.toLowerCase` of an absent message. -/
inductive Thrown where
  | err (e : JsError)
  | undef
  | typeError
  deriving DecidableEq, Repr

/-- The observables of one `withRetry` call: how it settled, how many times
`operation` was invoked, the arguments passed to `sleep` (line 41, in
order), and whether control reached the trailing `throw lastError` after the
loop (line 47). -/
structure RunResult (α : Type) where
  outcome : Except Thrown α
  invocations : Nat
  sleeps : List (Option ℚ)
  exitedLoop : Bool
  deriving Repr

/-- JS multiplication where either operand may be `undefined`/`NaN`
(modelled by `none`): any such operand makes the product `NaN`. -/
def jsMul : Option ℚ → Option ℚ → Option ℚ
  | some a, some b => some (a * b)
  | _, _ => none

/-- JS `Math.min` where either argument may be `undefined`/`NaN` (modelled
by `none`): any such argument makes the result `NaN`. -/
def jsMin : Option ℚ → Option ℚ → Option ℚ
  | some a, some b => some (min a b)
  | _, _ => none

/-- A JS policy object as destructured on line 18: each of the four fields
may be absent (`undefined`). -/
structure PolicyObject where
  maxAttempts : Option Int
  initialDelay : Option ℚ
  maxDelay : Option ℚ
  backoffFactor : Option ℚ
  deriving DecidableEq, Repr

/-- src/index.js lines 10-15: the process-wide default retry configuration. -/
def RETRY_CONFIG : PolicyObject :=
  { maxAttempts := some 3
    initialDelay := some 1000
    maxDelay := some 10000
    backoffFactor := some 2 }

/-- The value thrown by the trailing `throw lastError`: the stored error, or
the `undefined` value when no attempt ever ran. -/
def thrownOfLast : Option JsError → Thrown
  | none => Thrown.undef
  | some e => Thrown.err e

/-- The `for` loop of `withRetry` (src/index.js lines 22-46) plus the
trailing `throw lastError` (line 47).

`fuel` counts the iterations still permitted by the loop guard
`attempt <= maxAttempts`; it is initialised to `maxAttempts.toNat` with
`attempt = 1`, so along the recursion `attempt + fuel = maxAttempts + 1`
whenever `maxAttempts >= 0`, and `fuel = 0` is exactly the guard failing,
i.e. control reaching line 47.  `invoked` counts the invocations of
`operation` so far and `sleeps` accumulates the arguments passed to `sleep`.

The loop body: invoke the operation (line 24); on success return the result;
on failure record `lastError` (line 26), classify the error - the
classifier itself throwing a `TypeError` when the message is absent
propagates out of the `catch` block - and re-throw when it is not retryable
or this attempt is the last one (lines 29-31); otherwise sleep for `delay`
(line 41) and update `delay = Math.min(delay * backoffFactor, maxDelay)`
(line 44) before the next iteration. -/
def withRetryGo (op : Nat → Except JsError α) (maxAttempts : Int)
    (maxDelay backoffFactor : Option ℚ) :
    Nat → Nat → Option ℚ → Option JsError → Nat → List (Option ℚ) → RunResult α
  | 0, _attempt, _delay, lastError, invoked, sleeps =>
      ⟨Except.error (thrownOfLast lastError), invoked, sleeps, true⟩
  | fuel + 1, attempt, delay, _lastError, invoked, sleeps =>
      match op attempt with
      | Except.ok v => ⟨Except.ok v, invoked + 1, sleeps, false⟩
      | Except.error e =>
          match isRetryableError e with
          | Except.error _ => ⟨Except.error Thrown.typeError, invoked + 1, sleeps, false⟩
          | Except.ok retryable =>
              if retryable = false ∨ (attempt : Int) = maxAttempts then
                ⟨Except.error (Thrown.err e), invoked + 1, sleeps, false⟩
              else
                withRetryGo op maxAttempts maxDelay backoffFactor fuel (attempt + 1)
                  (jsMin (jsMul delay backoffFactor) maxDelay) (some e) (invoked + 1)
                  (sleeps ++ [delay])

/-- The policy defaulting of src/index.js line 18: the default parameter
`= RETRY_CONFIG` replaces the policy argument only when the argument as a
whole is absent; a supplied object is used as-is, its absent fields staying
absent. -/
def resolvePolicyObject (policyArg : Option PolicyObject) : PolicyObject :=
  policyArg.getD RETRY_CONFIG

/-- Modelled from the spec: the per-field defaulting the specification
describes - "defaults apply per-field if partially supplied" - where each
absent field of a supplied policy object is filled in from the process-wide
default policy (maxAttempts=3, initialDelay=1000ms, maxDelay=10000ms,
backoffFactor=2). -/
def resolvePolicyPerField (policyArg : Option PolicyObject) : PolicyObject :=
  match policyArg with
  | none => RETRY_CONFIG
  | some q =>
      { maxAttempts := some (q.maxAttempts.getD 3)
        initialDelay := some (q.initialDelay.getD 1000)
        maxDelay := some (q.maxDelay.getD 10000)
        backoffFactor := some (q.backoffFactor.getD 2) }

/-- src/index.js line 18: `withRetry(operation, {...} = RETRY_CONFIG)`.
The default parameter applies to the policy argument as a whole: only when
the argument is omitted (`none`) is `RETRY_CONFIG` destructured; a supplied
object is destructured as-is, its absent fields staying `undefined`.  When
`maxAttempts` is `undefined` the loop guard `1 <= undefined` is false, so
the loop body never runs and line 47 throws the `undefined` value of
`lastError`. -/
def withRetry (op : Nat → Except JsError α) (policyArg : Option PolicyObject) :
    RunResult α :=
  let p := resolvePolicyObject policyArg
  match p.maxAttempts with
  | none => ⟨Except.error Thrown.undef, 0, [], true⟩
  | some m => withRetryGo op m p.maxDelay p.backoffFactor m.toNat 1 p.initialDelay none 0 []

/-- A fully-supplied retry policy, as in the specification's data model. -/
structure RetryPolicy where
  maxAttempts : Int
  initialDelay : ℚ
  maxDelay : ℚ
  backoffFactor : ℚ
  deriving DecidableEq, Repr

/-- The policy object carrying all four fields of a full policy. -/
def RetryPolicy.toObject (p : RetryPolicy) : PolicyObject :=
  { maxAttempts := some p.maxAttempts
    initialDelay := some p.initialDelay
    maxDelay := some p.maxDelay
    backoffFactor := some p.backoffFactor }

/-- The specification's `execute`: `withRetry` applied to a fully-supplied
policy. -/
def execute (op : Nat → Except JsError α) (p : RetryPolicy) : RunResult α :=
  withRetry op (some p.toObject)

theorem execute_eq_go (op : Nat → Except JsError α) (p : RetryPolicy) :
    execute op p =
      withRetryGo op p.maxAttempts (some p.maxDelay) (some p.backoffFactor)
        p.maxAttempts.toNat 1 (some p.initialDelay) none 0 [] := by
  rfl

/-- The classifier throws exactly when the message field is absent. -/
theorem isRetryableError_eq_error {e : JsError} {t : JsTypeError}
    (h : isRetryableError e = Except.error t) : e.message = none := by
  cases e with
  | mk msg => cases msg <;> simp_all [isRetryableError]

/-- Master lemma for the loop: starting inside the loop with
`invoked + 1 = attempt` and `attempt + fuel = maxAttempts + 1` and at least
one permitted iteration, the run never reaches the trailing throw, invokes
the operation between one and `fuel` more times, every invocation before
the final one failed with an error classified retryable, and the outcome is
decided by the final invocation: its success value, its own error re-thrown
(because it is classified non-retryable or the attempt budget is spent), or
the classifier TypeError on its message-less error. -/
theorem withRetryGo_spec (op : Nat → Except JsError α) (M : Int)
    (maxD f : Option ℚ) :
    ∀ (fuel : Nat), ∀ (attempt invoked : Nat) (delay : Option ℚ)
      (lastE : Option JsError) (sleeps : List (Option ℚ)),
      invoked + 1 = attempt →
      (attempt : Int) + (fuel : Int) = M + 1 →
      1 ≤ fuel →
      (withRetryGo op M maxD f fuel attempt delay lastE invoked sleeps).exitedLoop
          = false ∧
      invoked < (withRetryGo op M maxD f fuel attempt delay lastE invoked
          sleeps).invocations ∧
      (withRetryGo op M maxD f fuel attempt delay lastE invoked
          sleeps).invocations ≤ invoked + fuel ∧
      (∀ j, attempt ≤ j →
        j < (withRetryGo op M maxD f fuel attempt delay lastE invoked
            sleeps).invocations →
        ∃ e, op j = Except.error e ∧ isRetryableError e = Except.ok true) ∧
      ((∃ v,
          (withRetryGo op M maxD f fuel attempt delay lastE invoked
              sleeps).outcome = Except.ok v ∧
          op (withRetryGo op M maxD f fuel attempt delay lastE invoked
              sleeps).invocations = Except.ok v) ∨
       (∃ e,
          (withRetryGo op M maxD f fuel attempt delay lastE invoked
              sleeps).outcome = Except.error (Thrown.err e) ∧
          op (withRetryGo op M maxD f fuel attempt delay lastE invoked
              sleeps).invocations = Except.error e ∧
          (isRetryableError e = Except.ok false ∨
            ((withRetryGo op M maxD f fuel attempt delay lastE invoked
                sleeps).invocations : Int) = M)) ∨
       (∃ e,
          (withRetryGo op M maxD f fuel attempt delay lastE invoked
              sleeps).outcome = Except.error Thrown.typeError ∧
          op (withRetryGo op M maxD f fuel attempt delay lastE invoked
              sleeps).invocations = Except.error e ∧
          e.message = none)) := by
  intro fuel
  induction fuel with
  | zero =>
      intro attempt invoked delay lastE sleeps h1 h2 h3
      omega
  | succ n ih =>
      intro attempt invoked delay lastE sleeps h1 h2 h3
      cases hop : op attempt with
      | ok v =>
          have hr : withRetryGo op M maxD f (n + 1) attempt delay lastE invoked sleeps
              = ⟨Except.ok v, invoked + 1, sleeps, false⟩ := by
            simp [withRetryGo, hop]
          rw [hr]
          dsimp only
          refine ⟨rfl, by omega, by omega, ?_, Or.inl ⟨v, rfl, ?_⟩⟩
          · intro j hj1 hj2
            omega
          · rw [h1, hop]
      | error e =>
          cases hcl : isRetryableError e with
          | error t =>
              have hr : withRetryGo op M maxD f (n + 1) attempt delay lastE invoked sleeps
                  = ⟨Except.error Thrown.typeError, invoked + 1, sleeps, false⟩ := by
                simp [withRetryGo, hop, hcl]
              rw [hr]
              dsimp only
              refine ⟨rfl, by omega, by omega, ?_,
                Or.inr (Or.inr ⟨e, rfl, ?_, isRetryableError_eq_error hcl⟩)⟩
              · intro j hj1 hj2
                omega
              · rw [h1, hop]
          | ok b =>
              by_cases hcond : b = false ∨ (attempt : Int) = M
              · have hr :
                    withRetryGo op M maxD f (n + 1) attempt delay lastE invoked sleeps
                      = ⟨Except.error (Thrown.err e), invoked + 1, sleeps, false⟩ := by
                  simp [withRetryGo, hop, hcl, hcond]
                rw [hr]
                dsimp only
                refine ⟨rfl, by omega, by omega, ?_,
                  Or.inr (Or.inl ⟨e, rfl, ?_, ?_⟩)⟩
                · intro j hj1 hj2
                  omega
                · rw [h1, hop]
                · rcases hcond with hb | hM
                  · exact Or.inl (hb ▸ hcl)
                  · exact Or.inr (by rw [h1]; exact_mod_cast hM)
              · have hb : b = true := by
                  rcases hcond' : b with _ | _
                  · exact absurd (Or.inl hcond') hcond
                  · rfl
                have hM : (attempt : Int) ≠ M := by
                  intro h
                  exact hcond (Or.inr h)
                have hr :
                    withRetryGo op M maxD f (n + 1) attempt delay lastE invoked sleeps
                      = withRetryGo op M maxD f n (attempt + 1)
                          (jsMin (jsMul delay f) maxD) (some e) (invoked + 1)
                          (sleeps ++ [delay]) := by
                  simp [withRetryGo, hop, hcl, hb, hM]
                have hn : 1 ≤ n := by omega
                have ihr := ih (attempt + 1) (invoked + 1)
                  (jsMin (jsMul delay f) maxD) (some e) (sleeps ++ [delay])
                  (by omega) (by push_cast; push_cast at h2; omega) hn
                rw [hr]
                obtain ⟨hexit, hlt, hle, hprev, hout⟩ := ihr
                refine ⟨hexit, by omega, by omega, ?_, hout⟩
                intro j hj1 hj2
                rcases Nat.eq_or_lt_of_le hj1 with hj | hj
                · exact ⟨e, hj ▸ hop, hb ▸ hcl⟩
                · exact hprev j (by omega) hj2

/-- The sleep log is a pure accumulator: running the loop with log `s`
yields `s` followed by whatever the same run logs starting from the empty
log. -/
theorem withRetryGo_sleeps_acc (op : Nat → Except JsError α) (M : Int)
    (maxD f : Option ℚ) :
    ∀ (fuel attempt invoked : Nat) (delay : Option ℚ) (lastE : Option JsError)
      (s : List (Option ℚ)),
      (withRetryGo op M maxD f fuel attempt delay lastE invoked s).sleeps
        = s ++ (withRetryGo op M maxD f fuel attempt delay lastE invoked []).sleeps := by
  intro fuel
  induction fuel with
  | zero =>
      intro attempt invoked delay lastE s
      simp [withRetryGo]
  | succ n ih =>
      intro attempt invoked delay lastE s
      cases hop : op attempt with
      | ok v => simp [withRetryGo, hop]
      | error e =>
          cases hcl : isRetryableError e with
          | error t => simp [withRetryGo, hop, hcl]
          | ok b =>
              by_cases hcond : b = false ∨ (attempt : Int) = M
              · simp [withRetryGo, hop, hcl, hcond]
              · have hb : b = true := by
                  rcases hb' : b with _ | _
                  · exact absurd (Or.inl hb') hcond
                  · rfl
                have hM : ¬ ((attempt : Int) = M) := fun h => hcond (Or.inr h)
                rw [show withRetryGo op M maxD f (n + 1) attempt delay lastE invoked s
                    = withRetryGo op M maxD f n (attempt + 1)
                        (jsMin (jsMul delay f) maxD) (some e) (invoked + 1)
                        (s ++ [delay]) by simp [withRetryGo, hop, hcl, hb, hM],
                  show withRetryGo op M maxD f (n + 1) attempt delay lastE invoked []
                    = withRetryGo op M maxD f n (attempt + 1)
                        (jsMin (jsMul delay f) maxD) (some e) (invoked + 1)
                        ([] ++ [delay]) by simp [withRetryGo, hop, hcl, hb, hM]]
                rw [ih _ _ _ _ (s ++ [delay]), ih _ _ _ _ ([] ++ [delay])]
                simp

/-- Starting from an empty sleep log, the log either stays empty or starts
with the delay value the loop was entered with: the first wait is never
capped. -/
theorem withRetryGo_sleeps_head (op : Nat → Except JsError α) (M : Int)
    (maxD f : Option ℚ) (fuel attempt invoked : Nat) (delay : Option ℚ)
    (lastE : Option JsError) :
    (withRetryGo op M maxD f fuel attempt delay lastE invoked []).sleeps = []
    ∨ ∃ t, (withRetryGo op M maxD f fuel attempt delay lastE invoked []).sleeps
        = delay :: t := by
  cases fuel with
  | zero => left; simp [withRetryGo]
  | succ n =>
      cases hop : op attempt with
      | ok v => left; simp [withRetryGo, hop]
      | error e =>
          cases hcl : isRetryableError e with
          | error t => left; simp [withRetryGo, hop, hcl]
          | ok b =>
              by_cases hcond : b = false ∨ (attempt : Int) = M
              · left; simp [withRetryGo, hop, hcl, hcond]
              · have hb : b = true := by
                  rcases hb' : b with _ | _
                  · exact absurd (Or.inl hb') hcond
                  · rfl
                have hM : ¬ ((attempt : Int) = M) := fun h => hcond (Or.inr h)
                right
                rw [show withRetryGo op M maxD f (n + 1) attempt delay lastE invoked []
                    = withRetryGo op M maxD f n (attempt + 1)
                        (jsMin (jsMul delay f) maxD) (some e) (invoked + 1)
                        ([] ++ [delay]) by simp [withRetryGo, hop, hcl, hb, hM]]
                rw [withRetryGo_sleeps_acc]
                exact ⟨_, rfl⟩

/-- With a fully-supplied policy whose backoff factor exceeds one, a
current delay that is non-negative and within the cap keeps the whole sleep
log within the cap and non-decreasing. -/
theorem withRetryGo_sleeps_mono (op : Nat → Except JsError α) (M : Int)
    (maxD f : ℚ) (hf : 1 < f) :
    ∀ (fuel attempt invoked : Nat) (lastE : Option JsError) (delay : ℚ)
      (ds : List ℚ),
      0 ≤ delay → delay ≤ maxD →
      List.Chain' (· ≤ ·) ds → (∀ x ∈ ds, x ≤ delay) →
      ∃ ds' : List ℚ,
        (withRetryGo op M (some maxD) (some f) fuel attempt (some delay) lastE
            invoked (ds.map some)).sleeps = ds'.map some ∧
        List.Chain' (· ≤ ·) ds' ∧ ∀ x ∈ ds', x ≤ maxD := by
  intro fuel
  induction fuel with
  | zero =>
      intro attempt invoked lastE delay ds h0 hcap hchain hall
      refine ⟨ds, by simp [withRetryGo], hchain, fun x hx => le_trans (hall x hx) hcap⟩
  | succ n ih =>
      intro attempt invoked lastE delay ds h0 hcap hchain hall
      cases hop : op attempt with
      | ok v =>
          refine ⟨ds, by simp [withRetryGo, hop], hchain,
            fun x hx => le_trans (hall x hx) hcap⟩
      | error e =>
          cases hcl : isRetryableError e with
          | error t =>
              refine ⟨ds, by simp [withRetryGo, hop, hcl], hchain,
                fun x hx => le_trans (hall x hx) hcap⟩
          | ok b =>
              by_cases hcond : b = false ∨ (attempt : Int) = M
              · refine ⟨ds, by simp [withRetryGo, hop, hcl, hcond], hchain,
                  fun x hx => le_trans (hall x hx) hcap⟩
              · have hb : b = true := by
                  rcases hb' : b with _ | _
                  · exact absurd (Or.inl hb') hcond
                  · rfl
                have hM : ¬ ((attempt : Int) = M) := fun h => hcond (Or.inr h)
                have hr : withRetryGo op M (some maxD) (some f) (n + 1) attempt
                    (some delay) lastE invoked (ds.map some)
                    = withRetryGo op M (some maxD) (some f) n (attempt + 1)
                        (some (min (delay * f) maxD)) (some e) (invoked + 1)
                        ((ds ++ [delay]).map some) := by
                  simp [withRetryGo, hop, hcl, hb, hM, jsMul, jsMin]
                have hd0 : 0 ≤ min (delay * f) maxD :=
                  le_min (mul_nonneg h0 (le_trans zero_le_one hf.le))
                    (le_trans h0 hcap)
                have hdelay_le : delay ≤ min (delay * f) maxD :=
                  le_min (le_mul_of_one_le_right h0 hf.le) hcap
                have hchain' : List.Chain' (· ≤ ·) (ds ++ [delay]) := by
                  rw [List.chain'_append]
                  refine ⟨hchain, List.chain'_singleton _, ?_⟩
                  intro x hx y hy
                  simp only [List.head?_cons, Option.mem_def, Option.some.injEq] at hy
                  subst hy
                  exact hall x (List.mem_of_mem_getLast? hx)
                have hall' : ∀ x ∈ ds ++ [delay], x ≤ min (delay * f) maxD := by
                  intro x hx
                  rcases List.mem_append.mp hx with hx | hx
                  · exact le_trans (hall x hx) hdelay_le
                  · simp only [List.mem_singleton] at hx
                    subst hx
                    exact hdelay_le
                rw [hr]
                exact ih (attempt + 1) (invoked + 1) (some e)
                  (min (delay * f) maxD) (ds ++ [delay]) hd0 (min_le_right _ _)
                  hchain' hall'

/-- C3: for every error whose message string, lower-cased, contains a member
of the RetryableErrorSet as a substring, the classifier returns true; for
every error whose message contains none of them it returns false; and the
check is case-insensitive, so "Network Error" and "NETWORK ERROR" both
classify as retryable. -/
theorem C3_classifier_matches_set :
    (∀ m : String,
      (isRetryableError ⟨some m⟩ = Except.ok true ↔
        ∃ s ∈ retryableErrorSet, s.data <:+: (jsToLower m).data) ∧
      (isRetryableError ⟨some m⟩ = Except.ok false ↔
        ∀ s ∈ retryableErrorSet, ¬ s.data <:+: (jsToLower m).data)) ∧
    isRetryableError ⟨some "Network Error"⟩ = Except.ok true ∧
    isRetryableError ⟨some "NETWORK ERROR"⟩ = Except.ok true := by
  refine ⟨fun m => ⟨?_, ?_⟩, rfl, rfl⟩
  · rw [isRetryableError_some m]
    simp only [Except.ok.injEq, List.any_eq_true, jsIncludes,
      listContainsSeq_eq_true_iff]
  · rw [isRetryableError_some m]
    simp only [Except.ok.injEq, List.any_eq_false, jsIncludes]
    constructor
    · intro h s hs
      rw [← listContainsSeq_eq_true_iff]
      simp [h s hs]
    · intro h s hs
      have := h s hs
      rw [← listContainsSeq_eq_true_iff] at this
      simpa using this

/-- C3 witness: the iff instantiated at a concrete retryable message and a
concrete non-retryable one. -/
theorem C3_classifier_matches_set_witness :
    isRetryableError ⟨some "ECONN: connection reset by peer"⟩ = Except.ok true ∧
    isRetryableError ⟨some "execution reverted"⟩ = Except.ok false := by
  constructor
  · exact (C3_classifier_matches_set.1 "ECONN: connection reset by peer").1.mpr
      ⟨"connection reset", by decide,
        (listContainsSeq_eq_true_iff _ _).mp (by decide)⟩
  · exact (C3_classifier_matches_set.1 "execution reverted").2.mpr
      (by
        intro s hs
        rw [← listContainsSeq_eq_true_iff]
        fin_cases hs <;> decide)

/-- C4 counterexample: on an error value with no message field the
classifier does not return a boolean at all - `error.message.toLowerCase()`
throws a TypeError - so it is not total and does not classify a missing
message as non-retryable. -/
theorem C4_counterexample :
    isRetryableError ⟨none⟩ = Except.error JsTypeError.typeError ∧
    ¬ ∃ b, isRetryableError ⟨none⟩ = Except.ok b := by
  refine ⟨rfl, ?_⟩
  rintro ⟨b, hb⟩
  simp [isRetryableError] at hb

/-- C4 (amended): for every error value whose message field is present the
classifier returns a boolean, and for the empty message that boolean is
false; for a missing message the classifier throws a TypeError instead of
returning a boolean. -/
theorem C4_total_on_present_messages :
    (∀ m : String, ∃ b, isRetryableError ⟨some m⟩ = Except.ok b) ∧
    isRetryableError ⟨some ""⟩ = Except.ok false ∧
    isRetryableError ⟨none⟩ = Except.error JsTypeError.typeError := by
  exact ⟨fun m => ⟨_, isRetryableError_some m⟩, rfl, rfl⟩

/-- C5: when the first invocation fails with an error classified
non-retryable, execute fails with exactly that error after exactly one
invocation and zero backoff waits. -/
theorem C5_nonretryable_fails_immediately (op : Nat → Except JsError α)
    (p : RetryPolicy) (e : JsError) (hop : op 1 = Except.error e)
    (hcl : isRetryableError e = Except.ok false) (hM : 1 ≤ p.maxAttempts) :
    execute op p = ⟨Except.error (Thrown.err e), 1, [], false⟩ := by
  obtain ⟨n, hn⟩ : ∃ n, p.maxAttempts.toNat = n + 1 :=
    ⟨p.maxAttempts.toNat - 1, by omega⟩
  rw [execute_eq_go, hn]
  simp [withRetryGo, hop, hcl]

/-- C5 witness: a non-retryable first failure under the default policy. -/
theorem C5_nonretryable_fails_immediately_witness :
    isRetryableError ⟨some "execution reverted: slippage"⟩ = Except.ok false ∧
    execute (fun _ => (Except.error ⟨some "execution reverted: slippage"⟩ : Except JsError Nat))
        ⟨3, 1000, 10000, 2⟩
      = ⟨Except.error (Thrown.err ⟨some "execution reverted: slippage"⟩), 1, [],
          false⟩ := by
  refine ⟨rfl, ?_⟩
  exact C5_nonretryable_fails_immediately
    (fun _ => (Except.error ⟨some "execution reverted: slippage"⟩ : Except JsError Nat))
    ⟨3, 1000, 10000, 2⟩ ⟨some "execution reverted: slippage"⟩ rfl rfl (by norm_num)

/-- C6: execute returns the result of the first succeeding attempt with no
further attempts and no delay after it: a first-call success is returned
after one invocation and zero waits, and a success at the third invocation
after two retryable failures is returned after exactly two waits. -/
theorem C6_success_short_circuits (α : Type) :
    (∀ (op : Nat → Except JsError α) (p : RetryPolicy) (v : α),
      op 1 = Except.ok v → 1 ≤ p.maxAttempts →
      execute op p = ⟨Except.ok v, 1, [], false⟩) ∧
    (∀ (op : Nat → Except JsError α) (p : RetryPolicy) (e1 e2 : JsError) (v : α),
      op 1 = Except.error e1 → isRetryableError e1 = Except.ok true →
      op 2 = Except.error e2 → isRetryableError e2 = Except.ok true →
      op 3 = Except.ok v → 3 ≤ p.maxAttempts →
      (execute op p).outcome = Except.ok v ∧
      (execute op p).invocations = 3 ∧
      (execute op p).sleeps.length = 2) := by
  constructor
  · intro op p v hop hM
    obtain ⟨n, hn⟩ : ∃ n, p.maxAttempts.toNat = n + 1 :=
      ⟨p.maxAttempts.toNat - 1, by omega⟩
    rw [execute_eq_go, hn]
    simp [withRetryGo, hop]
  · intro op p e1 e2 v h1 hc1 h2 hc2 h3 hM
    obtain ⟨n, hn⟩ : ∃ n, p.maxAttempts.toNat = n + 3 :=
      ⟨p.maxAttempts.toNat - 3, by omega⟩
    have hq1 : ¬ ((1 : Int) = p.maxAttempts) := by omega
    have hq2 : ¬ ((2 : Int) = p.maxAttempts) := by omega
    have hr : execute op p
        = ⟨Except.ok v, 3,
            [some p.initialDelay,
              jsMin (jsMul (some p.initialDelay) (some p.backoffFactor))
                (some p.maxDelay)], false⟩ := by
      rw [execute_eq_go, hn]
      simp [withRetryGo, h1, hc1, hq1, h2, hc2, hq2, h3]
    rw [hr]
    exact ⟨rfl, rfl, rfl⟩

/-- C6 witness: both parts at concrete operations under the default policy. -/
theorem C6_success_short_circuits_witness :
    execute (fun _ => Except.ok 42) ⟨3, 1000, 10000, 2⟩
      = ⟨Except.ok 42, 1, [], false⟩ ∧
    ((execute
        (fun k => if k ≤ 2 then Except.error ⟨some "timeout"⟩ else Except.ok 7)
        ⟨3, 1000, 10000, 2⟩).outcome = Except.ok 7 ∧
      (execute
        (fun k => if k ≤ 2 then Except.error ⟨some "timeout"⟩ else Except.ok 7)
        ⟨3, 1000, 10000, 2⟩).invocations = 3 ∧
      (execute
        (fun k => if k ≤ 2 then Except.error ⟨some "timeout"⟩ else Except.ok 7)
        ⟨3, 1000, 10000, 2⟩).sleeps.length = 2) := by
  constructor
  · exact (C6_success_short_circuits Nat).1 (fun _ => Except.ok 42)
      ⟨3, 1000, 10000, 2⟩ 42 rfl (by norm_num)
  · exact (C6_success_short_circuits Nat).2
      (fun k => if k ≤ 2 then Except.error ⟨some "timeout"⟩ else Except.ok 7)
      ⟨3, 1000, 10000, 2⟩ ⟨some "timeout"⟩ ⟨some "timeout"⟩ 7
      rfl rfl rfl rfl rfl (by norm_num)

/-- C2: an operation failing with a retryable error on every invocation,
run under policy maxAttempts=3, initialDelay=1000, maxDelay=10000,
backoffFactor=2, is invoked exactly 3 times, with exactly two backoff waits
of 1000ms then 2000ms between consecutive attempts, and execute fails with
the error produced by the third invocation. -/
theorem C2_three_attempts_default_policy (op : Nat → Except JsError α)
    (h : ∀ k, ∃ e, op k = Except.error e ∧ isRetryableError e = Except.ok true) :
    (execute op ⟨3, 1000, 10000, 2⟩).invocations = 3 ∧
    (execute op ⟨3, 1000, 10000, 2⟩).sleeps = [some 1000, some 2000] ∧
    ∃ e, op 3 = Except.error e ∧
      (execute op ⟨3, 1000, 10000, 2⟩).outcome = Except.error (Thrown.err e) := by
  obtain ⟨e1, h1, hc1⟩ := h 1
  obtain ⟨e2, h2, hc2⟩ := h 2
  obtain ⟨e3, h3, hc3⟩ := h 3
  have hr : execute op ⟨3, 1000, 10000, 2⟩
      = ⟨Except.error (Thrown.err e3), 3,
          [some 1000, jsMin (jsMul (some 1000) (some 2)) (some 10000)], false⟩ := by
    rw [execute_eq_go]
    norm_num [withRetryGo, h1, hc1, h2, hc2, h3, hc3]
  rw [hr]
  refine ⟨rfl, ?_, e3, h3, rfl⟩
  norm_num [jsMul, jsMin]

/-- C2 witness: a concrete operation that fails with a retryable error on
every invocation. -/
theorem C2_three_attempts_default_policy_witness :
    (execute (fun _ => (Except.error ⟨some "timeout"⟩ : Except JsError Nat))
        ⟨3, 1000, 10000, 2⟩).invocations = 3 ∧
    (execute (fun _ => (Except.error ⟨some "timeout"⟩ : Except JsError Nat))
        ⟨3, 1000, 10000, 2⟩).sleeps = [some 1000, some 2000] ∧
    ∃ e, (Except.error ⟨some "timeout"⟩ : Except JsError Nat) = Except.error e ∧
      (execute (fun _ => (Except.error ⟨some "timeout"⟩ : Except JsError Nat))
        ⟨3, 1000, 10000, 2⟩).outcome = Except.error (Thrown.err e) := by
  exact C2_three_attempts_default_policy
    (fun _ => (Except.error ⟨some "timeout"⟩ : Except JsError Nat))
    (fun k => ⟨⟨some "timeout"⟩, rfl, rfl⟩)

/-- C1: for every operation producing errors that carry a message, and
every policy with maxAttempts at least 1, execute either returns the
successful result of the attempt it stopped at, or fails with exactly the
error produced by the final attempt it ran - that attempt being attempt
maxAttempts or the first one whose error is classified non-retryable, every
earlier attempt having failed with a retryable error.  The thrown error is
an error actually produced by an invocation of the operation, unwrapped,
and the run always settles with either a result or a failure. -/
theorem C1_failure_guarantee (op : Nat → Except JsError α) (p : RetryPolicy)
    (hM : 1 ≤ p.maxAttempts)
    (hmsg : ∀ k e, op k = Except.error e → e.message ≠ none) :
    1 ≤ (execute op p).invocations ∧
    ((execute op p).invocations : Int) ≤ p.maxAttempts ∧
    (∀ j, 1 ≤ j → j < (execute op p).invocations →
      ∃ e, op j = Except.error e ∧ isRetryableError e = Except.ok true) ∧
    ((∃ v, (execute op p).outcome = Except.ok v ∧
        op (execute op p).invocations = Except.ok v) ∨
     (∃ e, (execute op p).outcome = Except.error (Thrown.err e) ∧
        op (execute op p).invocations = Except.error e ∧
        (isRetryableError e = Except.ok false ∨
          ((execute op p).invocations : Int) = p.maxAttempts))) := by
  have hs := withRetryGo_spec op p.maxAttempts (some p.maxDelay)
    (some p.backoffFactor) p.maxAttempts.toNat 1 0 (some p.initialDelay) none []
    rfl (by omega) (by omega)
  rw [execute_eq_go]
  obtain ⟨hexit, hlt, hle, hprev, hout⟩ := hs
  refine ⟨by omega, by omega, hprev, ?_⟩
  rcases hout with h | h | h
  · exact Or.inl h
  · exact Or.inr h
  · obtain ⟨e, _, hope, hnone⟩ := h
    exact absurd hnone (hmsg _ e hope)

/-- C1 witness: a run that exhausts the budget on retryable errors under
the default policy. -/
theorem C1_failure_guarantee_witness :
    1 ≤ (execute (fun _ => (Except.error ⟨some "rate limit exceeded"⟩ :
        Except JsError Nat)) ⟨3, 1000, 10000, 2⟩).invocations ∧
    ((execute (fun _ => (Except.error ⟨some "rate limit exceeded"⟩ :
        Except JsError Nat)) ⟨3, 1000, 10000, 2⟩).invocations : Int) ≤ 3 ∧
    (∀ j, 1 ≤ j →
      j < (execute (fun _ => (Except.error ⟨some "rate limit exceeded"⟩ :
          Except JsError Nat)) ⟨3, 1000, 10000, 2⟩).invocations →
      ∃ e, (Except.error ⟨some "rate limit exceeded"⟩ : Except JsError Nat)
          = Except.error e ∧ isRetryableError e = Except.ok true) ∧
    ((∃ v, (execute (fun _ => (Except.error ⟨some "rate limit exceeded"⟩ :
          Except JsError Nat)) ⟨3, 1000, 10000, 2⟩).outcome = Except.ok v ∧
        (Except.error ⟨some "rate limit exceeded"⟩ : Except JsError Nat)
          = Except.ok v) ∨
     (∃ e, (execute (fun _ => (Except.error ⟨some "rate limit exceeded"⟩ :
          Except JsError Nat)) ⟨3, 1000, 10000, 2⟩).outcome
            = Except.error (Thrown.err e) ∧
        (Except.error ⟨some "rate limit exceeded"⟩ : Except JsError Nat)
          = Except.error e ∧
        (isRetryableError e = Except.ok false ∨
          ((execute (fun _ => (Except.error ⟨some "rate limit exceeded"⟩ :
              Except JsError Nat)) ⟨3, 1000, 10000, 2⟩).invocations : Int)
            = 3))) := by
  exact C1_failure_guarantee
    (fun _ => (Except.error ⟨some "rate limit exceeded"⟩ : Except JsError Nat))
    ⟨3, 1000, 10000, 2⟩ (by norm_num)
    (fun k e he => by
      simp only [Except.error.injEq] at he
      rw [← he]
      simp)

/-- C7: for every policy with backoffFactor above 1 and a non-negative
initial delay no greater than the delay cap, the backoff delays execute
actually sleeps form a non-decreasing sequence, none of them exceeding
maxDelay. -/
theorem C7_backoff_monotone_capped (op : Nat → Except JsError α)
    (p : RetryPolicy) (h0 : 0 ≤ p.initialDelay)
    (h1 : p.initialDelay ≤ p.maxDelay) (h2 : 1 < p.backoffFactor) :
    ∃ ds : List ℚ, (execute op p).sleeps = ds.map some ∧
      List.Chain' (· ≤ ·) ds ∧ ∀ d ∈ ds, d ≤ p.maxDelay := by
  rw [execute_eq_go]
  have := withRetryGo_sleeps_mono op p.maxAttempts p.maxDelay p.backoffFactor h2
    p.maxAttempts.toNat 1 0 none p.initialDelay [] h0 h1 List.chain'_nil
    (fun x hx => absurd hx (List.not_mem_nil x))
  simpa using this

/-- C7 witness: the delay trace 1000, 2000, 4000, 8000, 10000, 10000 under
a seven-attempt policy is non-decreasing and capped at 10000. -/
theorem C7_backoff_monotone_capped_witness :
    ∃ ds : List ℚ,
      (execute (fun _ => (Except.error ⟨some "timeout"⟩ : Except JsError Nat))
          ⟨7, 1000, 10000, 2⟩).sleeps = ds.map some ∧
      List.Chain' (· ≤ ·) ds ∧ ∀ d ∈ ds, d ≤ (10000 : ℚ) := by
  exact C7_backoff_monotone_capped
    (fun _ => (Except.error ⟨some "timeout"⟩ : Except JsError Nat))
    ⟨7, 1000, 10000, 2⟩ (by norm_num) (by norm_num) (by norm_num)

/-- C9: with maxAttempts at least 1 the operation is invoked at least once
and the trailing `throw lastError` after the loop never runs; with
maxAttempts at most 0 the operation is invoked zero times, the loop is
exited immediately, and withRetry throws the undefined value of the unset
`lastError` rather than any error produced by the operation. -/
theorem C9_trailing_throw (op : Nat → Except JsError α) (p : RetryPolicy) :
    (1 ≤ p.maxAttempts →
      1 ≤ (execute op p).invocations ∧ (execute op p).exitedLoop = false) ∧
    (p.maxAttempts ≤ 0 →
      (execute op p).invocations = 0 ∧
      (execute op p).outcome = Except.error Thrown.undef ∧
      (execute op p).exitedLoop = true) := by
  constructor
  · intro hM
    have hs := withRetryGo_spec op p.maxAttempts (some p.maxDelay)
      (some p.backoffFactor) p.maxAttempts.toNat 1 0 (some p.initialDelay) none []
      rfl (by omega) (by omega)
    rw [execute_eq_go]
    obtain ⟨hexit, hlt, _, _, _⟩ := hs
    exact ⟨by omega, hexit⟩
  · intro hM
    have hz : p.maxAttempts.toNat = 0 := by omega
    rw [execute_eq_go, hz]
    exact ⟨rfl, rfl, rfl⟩

/-- C9 witness: both maxAttempts regimes at a concrete operation. -/
theorem C9_trailing_throw_witness :
    (1 ≤ (execute (fun _ => (Except.error ⟨some "timeout"⟩ : Except JsError Nat))
        ⟨3, 1000, 10000, 2⟩).invocations ∧
      (execute (fun _ => (Except.error ⟨some "timeout"⟩ : Except JsError Nat))
        ⟨3, 1000, 10000, 2⟩).exitedLoop = false) ∧
    ((execute (fun _ => (Except.error ⟨some "timeout"⟩ : Except JsError Nat))
        ⟨0, 1000, 10000, 2⟩).invocations = 0 ∧
      (execute (fun _ => (Except.error ⟨some "timeout"⟩ : Except JsError Nat))
        ⟨0, 1000, 10000, 2⟩).outcome = Except.error Thrown.undef ∧
      (execute (fun _ => (Except.error ⟨some "timeout"⟩ : Except JsError Nat))
        ⟨0, 1000, 10000, 2⟩).exitedLoop = true) := by
  constructor
  · exact (C9_trailing_throw
      (fun _ => (Except.error ⟨some "timeout"⟩ : Except JsError Nat))
      ⟨3, 1000, 10000, 2⟩).1 (by norm_num)
  · exact (C9_trailing_throw
      (fun _ => (Except.error ⟨some "timeout"⟩ : Except JsError Nat))
      ⟨0, 1000, 10000, 2⟩).2 (by norm_num)

/-- C10: the maxDelay cap is applied only when computing the delay for
subsequent retries, never to the initial delay itself: whenever the sleep
log is non-empty its first entry is exactly initialDelay; a first attempt
failing retryably under a budget of at least two attempts does produce such
a first wait; and for a policy violating the invariant initialDelay is at
most maxDelay, that first wait exceeds maxDelay. -/
theorem C10_first_wait_uncapped (op : Nat → Except JsError α) (p : RetryPolicy) :
    (∀ x, (execute op p).sleeps.head? = some x → x = some p.initialDelay) ∧
    (∀ e, op 1 = Except.error e → isRetryableError e = Except.ok true →
      2 ≤ p.maxAttempts →
      (execute op p).sleeps.head? = some (some p.initialDelay)) ∧
    (p.maxDelay < p.initialDelay →
      ∀ e, op 1 = Except.error e → isRetryableError e = Except.ok true →
        2 ≤ p.maxAttempts →
        ∃ d : ℚ, (execute op p).sleeps.head? = some (some d) ∧ p.maxDelay < d) := by
  have hhead : ∀ e, op 1 = Except.error e → isRetryableError e = Except.ok true →
      2 ≤ p.maxAttempts →
      (execute op p).sleeps.head? = some (some p.initialDelay) := by
    intro e hop hcl hM
    obtain ⟨n, hn⟩ : ∃ n, p.maxAttempts.toNat = n + 2 :=
      ⟨p.maxAttempts.toNat - 2, by omega⟩
    have hq1 : ¬ ((1 : Int) = p.maxAttempts) := by omega
    have hr : execute op p
        = withRetryGo op p.maxAttempts (some p.maxDelay) (some p.backoffFactor)
            (n + 1) 2
            (jsMin (jsMul (some p.initialDelay) (some p.backoffFactor))
              (some p.maxDelay)) (some e) 1 ([] ++ [some p.initialDelay]) := by
      rw [execute_eq_go, hn]
      simp [withRetryGo, hop, hcl, hq1]
    rw [hr, withRetryGo_sleeps_acc]
    rfl
  refine ⟨?_, hhead, ?_⟩
  · intro x hx
    rw [execute_eq_go] at hx
    rcases withRetryGo_sleeps_head op p.maxAttempts (some p.maxDelay)
        (some p.backoffFactor) p.maxAttempts.toNat 1 0 (some p.initialDelay)
        none with h | ⟨t, h⟩
    · rw [h] at hx
      simp at hx
    · rw [h] at hx
      simp only [List.head?_cons, Option.some.injEq] at hx
      exact hx.symm
  · intro hinv e hop hcl hM
    exact ⟨p.initialDelay, hhead e hop hcl hM, hinv⟩

/-- C10 witness: with initialDelay 20000 above maxDelay 10000 the first
wait is 20000, exceeding the cap. -/
theorem C10_first_wait_uncapped_witness :
    (execute (fun _ => (Except.error ⟨some "timeout"⟩ : Except JsError Nat))
        ⟨3, 20000, 10000, 2⟩).sleeps.head? = some (some 20000) ∧
    ∃ d : ℚ,
      (execute (fun _ => (Except.error ⟨some "timeout"⟩ : Except JsError Nat))
          ⟨3, 20000, 10000, 2⟩).sleeps.head? = some (some d) ∧ (10000 : ℚ) < d := by
  constructor
  · exact (C10_first_wait_uncapped
      (fun _ => (Except.error ⟨some "timeout"⟩ : Except JsError Nat))
      ⟨3, 20000, 10000, 2⟩).2.1 ⟨some "timeout"⟩ rfl rfl (by norm_num)
  · exact (C10_first_wait_uncapped
      (fun _ => (Except.error ⟨some "timeout"⟩ : Except JsError Nat))
      ⟨3, 20000, 10000, 2⟩).2.2 (by norm_num) ⟨some "timeout"⟩ rfl rfl (by norm_num)

/-- C8 counterexample: a policy object supplying only maxAttempts keeps its
other fields undefined after the line-18 defaulting, where per-field
defaulting would fill in initialDelay=1000; and a policy object missing
only maxAttempts makes withRetry invoke the operation zero times and throw
undefined, where the per-field default maxAttempts=3 would return the first
success after one invocation. -/
theorem C8_counterexample :
    (resolvePolicyObject (some ⟨some 5, none, none, none⟩)).initialDelay = none ∧
    (resolvePolicyPerField (some ⟨some 5, none, none, none⟩)).initialDelay
        = some 1000 ∧
    withRetry (fun _ => (Except.ok 0 : Except JsError Nat))
        (some ⟨none, some 500, some 10000, some 2⟩)
      = ⟨Except.error Thrown.undef, 0, [], true⟩ ∧
    withRetry (fun _ => (Except.ok 0 : Except JsError Nat))
        (some (resolvePolicyPerField (some ⟨none, some 500, some 10000, some 2⟩)))
      = ⟨Except.ok 0, 1, [], false⟩ := by
  exact ⟨rfl, rfl, rfl, rfl⟩

/-- C8 (amended): defaulting at line 18 is whole-object, not per-field: the
process-wide default policy is used exactly when the policy argument is
omitted altogether, a supplied object is used unchanged with its missing
fields staying undefined, and in particular a supplied object without
maxAttempts makes withRetry invoke the operation zero times and throw
undefined. -/
theorem C8_whole_object_defaulting :
    resolvePolicyObject none = RETRY_CONFIG ∧
    (∀ q : PolicyObject, resolvePolicyObject (some q) = q) ∧
    (∀ (q : PolicyObject) (op : Nat → Except JsError α), q.maxAttempts = none →
      withRetry op (some q) = ⟨Except.error Thrown.undef, 0, [], true⟩) := by
  refine ⟨rfl, fun q => rfl, ?_⟩
  intro q op hq
  simp only [withRetry, resolvePolicyObject, Option.getD_some]
  rw [hq]

/-- C8 amended-claim witness: the maxAttempts-less object at a concrete
operation. -/
theorem C8_whole_object_defaulting_witness :
    (⟨none, some 500, some 10000, some 2⟩ : PolicyObject).maxAttempts = none ∧
    withRetry (fun _ => (Except.ok 7 : Except JsError Nat))
        (some ⟨none, some 500, some 10000, some 2⟩)
      = ⟨Except.error Thrown.undef, 0, [], true⟩ := by
  exact ⟨rfl, C8_whole_object_defaulting.2.2 ⟨none, some 500, some 10000, some 2⟩
    (fun _ => (Except.ok 7 : Except JsError Nat)) rfl⟩
